import Mathlib

/-!
Shallow embedding of the elevator control system in `src/elevator/elevator.cpp`.

Conventions of the embedding:
* `std::set<int> internalRequests` becomes `Finset Int`; `upper_bound c` on an
  ordered set is the least element strictly greater than `c`, `lower_bound c`
  is the least element `≥ c`, so `*(--lower_bound c)` is the greatest element
  strictly below `c`.
* `std::map<int, std::pair<bool,bool>> externalRequests` becomes a sorted
  association list `List (Int × Bool × Bool)` (key strictly increasing), and
  map iteration is list traversal in that order.
* The blocking sleeps, logging and console output have no effect on the
  modelled state and are dropped; the random passenger draw of
  `simulatePassengers` is passed in as the pair `(entering, exiting)`.
* One iteration of the `control` worker loop (in the case where the loop is
  awake, `running` is true and neither latch is set) is `controlStep`.
* C++ integer division truncates toward zero, which is `Int.tdiv`.
-/

namespace ElevatorSim

/-- States of one car, mirroring `enum class ElevatorState`. -/
inductive ElevatorState where
  | IDLE
  | MOVING_UP
  | MOVING_DOWN
  | DOORS_OPEN
  | EMERGENCY_STOP
  | MAINTENANCE
deriving DecidableEq

/-- Request kinds, mirroring `enum class RequestType`. -/
inductive RequestType where
  | INTERNAL
  | EXTERNAL_UP
  | EXTERNAL_DOWN
deriving DecidableEq

/-- The external-request map `floor -> (upPressed, downPressed)` as a sorted
association list, mirroring `std::map<int, std::pair<bool,bool>>`. -/
abbrev ExtMap := List (Int × Bool × Bool)

/-- Key lookup in the external-request map (`externalRequests.find(floor)`). -/
def extLookup : ExtMap → Int → Option (Bool × Bool)
  | [], _ => none
  | (g, u, d) :: rest, f => if f = g then some (u, d) else extLookup rest f

/-- Set the up bit at `f`, inserting the entry `(false,false)` first when the
key is absent, as `requestFloor` does for `EXTERNAL_UP`; sortedness of the
association list is maintained as `std::map` insertion would. -/
def extSetUp : ExtMap → Int → ExtMap
  | [], f => [(f, true, false)]
  | (g, u, d) :: rest, f =>
    if f < g then (f, true, false) :: (g, u, d) :: rest
    else if f = g then (g, true, d) :: rest
    else (g, u, d) :: extSetUp rest f

/-- Set the down bit at `f`, as `requestFloor` does for `EXTERNAL_DOWN`. -/
def extSetDown : ExtMap → Int → ExtMap
  | [], f => [(f, false, true)]
  | (g, u, d) :: rest, f =>
    if f < g then (f, false, true) :: (g, u, d) :: rest
    else if f = g then (g, u, true) :: rest
    else (g, u, d) :: extSetDown rest f

/-- Overwrite both bits at an existing key (the in-place writes of
`processStop` on the iterator `it`). -/
def extUpdate : ExtMap → Int → Bool → Bool → ExtMap
  | [], _, _, _ => []
  | (g, u, d) :: rest, f, u', d' =>
    if f = g then (g, u', d') :: rest else (g, u, d) :: extUpdate rest f u' d'

/-- Remove the entry at key `f` (`externalRequests.erase(it)`). -/
def extErase : ExtMap → Int → ExtMap
  | [], _ => []
  | (g, u, d) :: rest, f => if f = g then rest else (g, u, d) :: extErase rest f

/-- Mirrors `Elevator::hasExternalRequests`: some entry has a pressed bit. -/
def hasExternalRequests (l : ExtMap) : Bool :=
  l.any (fun r => r.2.1 || r.2.2)

/-- The mutable state of one `Elevator` object (fields that the modelled
member functions read or write). -/
structure ElevatorS where
  id : Int
  currentFloor : Int
  state : ElevatorState
  maxFloors : Int
  capacity : Int
  currentPassengers : Int
  doorOpen : Bool
  overloaded : Bool
  internalRequests : Finset Int
  externalRequests : ExtMap
  emergencyStop : Bool
  maintenanceMode : Bool
  totalTrips : Int
  totalFloorsTraveled : Int
deriving DecidableEq

/-- The `Elevator` constructor: floor 1, `IDLE`, empty collections. -/
def mkElevator (id maxFloors capacity : Int) : ElevatorS :=
  { id := id
    currentFloor := 1
    state := ElevatorState.IDLE
    maxFloors := maxFloors
    capacity := capacity
    currentPassengers := 0
    doorOpen := false
    overloaded := false
    internalRequests := ∅
    externalRequests := []
    emergencyStop := false
    maintenanceMode := false
    totalTrips := 0
    totalFloorsTraveled := 0 }

/-- Mirrors `Elevator::requestFloor(floor, type, emergency)`: range check,
maintenance rejection of non-emergency requests, the emergency latch path,
then insertion into the internal set or the external map.  The returned
`Bool` is the C++ return value. -/
def requestFloor (e : ElevatorS) (floor : Int) (t : RequestType)
    (emergency : Bool) : ElevatorS × Bool :=
  if floor < 1 ∨ e.maxFloors < floor then (e, false)
  else if e.maintenanceMode = true ∧ emergency = false then (e, false)
  else if emergency = true then ({ e with emergencyStop := true }, true)
  else
    match t with
    | RequestType.INTERNAL =>
      if floor ∈ e.internalRequests then (e, false)
      else ({ e with internalRequests := insert floor e.internalRequests }, true)
    | RequestType.EXTERNAL_UP =>
      ({ e with externalRequests := extSetUp e.externalRequests floor }, true)
    | RequestType.EXTERNAL_DOWN =>
      ({ e with externalRequests := extSetDown e.externalRequests floor }, true)

/-- Mirrors `Elevator::resetEmergency`. -/
def resetEmergency (e : ElevatorS) : ElevatorS :=
  { e with emergencyStop := false }

/-- The "on the way" test of the first loop in `findNextFloor`:
`(req.second.first && req.first >= currentFloor) ||
 (req.second.second && req.first <= currentFloor)`. -/
def onTheWay (cur : Int) (r : Int × Bool × Bool) : Bool :=
  (r.2.1 && decide (cur ≤ r.1)) || (r.2.2 && decide (r.1 ≤ cur))

/-- The predicate of the second loop in `findNextFloor`: any pressed bit. -/
def anyPressed (r : Int × Bool × Bool) : Bool :=
  r.2.1 || r.2.2

/-- The scanning loops of `findNextFloor`: traverse the map in key order
keeping the first entry that satisfies `pred` with strictly smaller distance
than the best so far (`best` = `closestFloor`, `minD` = `minDistance`). -/
def scanMin (cur : Int) (pred : Int × Bool × Bool → Bool) :
    ExtMap → Int → Int → Int
  | [], best, _ => best
  | r :: rest, best, minD =>
    if pred r = true ∧ |r.1 - cur| < minD then scanMin cur pred rest r.1 |r.1 - cur|
    else scanMin cur pred rest best minD

/-- The external-request half of `findNextFloor`: first pass over "on the
way" entries, then (when that found nothing, i.e. returned `-1`) a second
pass over all pressed entries; both start from `closestFloor = -1` and
`minDistance = maxFloors + 1`. -/
def findNextExternal (cur maxFloors : Int) (l : ExtMap) : Int :=
  let c1 := scanMin cur (onTheWay cur) l (-1) (maxFloors + 1)
  if c1 ≠ -1 then c1
  else scanMin cur anyPressed l (-1) (maxFloors + 1)

/-- Mirrors `Elevator::findNextFloor`.  Internal requests take priority:
moving up takes `*upper_bound(currentFloor)` (least element above) when it
exists, moving down takes `*(--lower_bound(currentFloor))` (greatest element
below) when it exists, and otherwise `*internalRequests.begin()` (the least
element) is returned.  With no internal requests the external map is
scanned. -/
def findNextFloor (e : ElevatorS) : Int :=
  if hne : e.internalRequests.Nonempty then
    if e.state = ElevatorState.MOVING_UP then
      if h : (e.internalRequests.filter (fun x => e.currentFloor < x)).Nonempty then
        (e.internalRequests.filter (fun x => e.currentFloor < x)).min' h
      else e.internalRequests.min' hne
    else if e.state = ElevatorState.MOVING_DOWN then
      if h : (e.internalRequests.filter (fun x => x < e.currentFloor)).Nonempty then
        (e.internalRequests.filter (fun x => x < e.currentFloor)).max' h
      else e.internalRequests.min' hne
    else e.internalRequests.min' hne
  else findNextExternal e.currentFloor e.maxFloors e.externalRequests

/-- Mirrors `Elevator::shouldStopAtCurrentFloor`. -/
def shouldStopAtCurrentFloor (e : ElevatorS) : Bool :=
  if e.currentFloor ∈ e.internalRequests then true
  else
    match extLookup e.externalRequests e.currentFloor with
    | none => false
    | some (u, d) =>
      if e.state = ElevatorState.MOVING_UP ∧ u = true then true
      else if e.state = ElevatorState.MOVING_DOWN ∧ d = true then true
      else if e.state = ElevatorState.IDLE ∧ (u = true ∨ d = true) then true
      else false

/-- Mirrors `Elevator::processStop`: erase the internal request at the
current floor, then clear hall bits at the current floor depending on
`state` (both bits in the branch where the state is neither `MOVING_UP` nor
`MOVING_DOWN`), dropping the entry when both bits end up false; finally
increment `totalTrips`. -/
def processStop (e : ElevatorS) : ElevatorS :=
  let e1 := { e with internalRequests := e.internalRequests.erase e.currentFloor }
  match extLookup e1.externalRequests e1.currentFloor with
  | none => { e1 with totalTrips := e1.totalTrips + 1 }
  | some (u, d) =>
    let bits : Bool × Bool :=
      if e1.state = ElevatorState.MOVING_UP then (false, d)
      else if e1.state = ElevatorState.MOVING_DOWN then (u, false)
      else (false, false)
    let ext :=
      if bits.1 = false ∧ bits.2 = false then extErase e1.externalRequests e1.currentFloor
      else extUpdate e1.externalRequests e1.currentFloor bits.1 bits.2
    { e1 with externalRequests := ext, totalTrips := e1.totalTrips + 1 }

/-- Mirrors `Elevator::move`: when moving, one floor up or down and one more
floor traveled; otherwise no effect. -/
def move (e : ElevatorS) : ElevatorS :=
  if e.state = ElevatorState.MOVING_UP then
    { e with currentFloor := e.currentFloor + 1
             totalFloorsTraveled := e.totalFloorsTraveled + 1 }
  else if e.state = ElevatorState.MOVING_DOWN then
    { e with currentFloor := e.currentFloor - 1
             totalFloorsTraveled := e.totalFloorsTraveled + 1 }
  else e

/-- Mirrors `Elevator::simulatePassengers` with the random draw `(entering,
exiting)` passed in: clamp `entering` to the remaining capacity, apply the
delta, and only then compare against `capacity` to decide `overloaded`. -/
def simulatePassengers (e : ElevatorS) (entering exiting : Int) : ElevatorS :=
  let entering2 := min entering (e.capacity - e.currentPassengers)
  let p := e.currentPassengers + entering2 - exiting
  if e.capacity < p then { e with overloaded := true, currentPassengers := e.capacity }
  else { e with currentPassengers := p }

/-- Mirrors `Elevator::openDoors`: set `DOORS_OPEN` and the door flag, then
run the passenger exchange. -/
def openDoors (e : ElevatorS) (entering exiting : Int) : ElevatorS :=
  simulatePassengers
    { e with state := ElevatorState.DOORS_OPEN, doorOpen := true } entering exiting

/-- Mirrors `Elevator::closeDoors`: clear `overloaded` when it was set (after
the overload warning), then clear the door flag. -/
def closeDoors (e : ElevatorS) : ElevatorS :=
  let e1 := if e.overloaded = true then { e with overloaded := false } else e
  { e1 with doorOpen := false }

/-- The stop block of the control loop: `openDoors(); processStop();
closeDoors();` in that order. -/
def stopCycle (e : ElevatorS) (entering exiting : Int) : ElevatorS :=
  closeDoors (processStop (openDoors e entering exiting))

/-- The direction-picking step at the top of the control loop body: an
`IDLE` car with pending work gets `MOVING_UP` exactly when
`findNextFloor() > currentFloor`, otherwise `MOVING_DOWN`. -/
def decideDirection (e : ElevatorS) : ElevatorS :=
  if e.state = ElevatorState.IDLE then
    if e.internalRequests ≠ ∅ ∨ hasExternalRequests e.externalRequests = true then
      { e with state :=
          if e.currentFloor < findNextFloor e then ElevatorState.MOVING_UP
          else ElevatorState.MOVING_DOWN }
    else e
  else e

/-- Mirrors `Elevator::updateState`: idle when no requests remain, otherwise
direction toward `findNextFloor()` (with `-1` meaning no target). -/
def updateState (e : ElevatorS) : ElevatorS :=
  if e.internalRequests = ∅ ∧ hasExternalRequests e.externalRequests = false then
    { e with state := ElevatorState.IDLE }
  else
    if findNextFloor e ≠ -1 then
      { e with state :=
          if e.currentFloor < findNextFloor e then ElevatorState.MOVING_UP
          else ElevatorState.MOVING_DOWN }
    else { e with state := ElevatorState.IDLE }

/-- One iteration of the body of `Elevator::control` in the normal case
(loop awake, `running` true, neither latch set): pick a direction when idle,
move, run the stop block when `shouldStopAtCurrentFloor()`, then
`updateState()`. -/
def controlStep (e : ElevatorS) (entering exiting : Int) : ElevatorS :=
  let e1 := decideDirection e
  let e2 := move e1
  let e3 := if shouldStopAtCurrentFloor e2 = true then stopCycle e2 entering exiting else e2
  updateState e3

/-- The entry half of `Elevator::handleEmergency`: `EMERGENCY_STOP`, doors
opened when the current floor is in range. -/
def handleEmergencyEnter (e : ElevatorS) : ElevatorS :=
  let e1 := { e with state := ElevatorState.EMERGENCY_STOP }
  if 1 ≤ e1.currentFloor ∧ e1.currentFloor ≤ e1.maxFloors then
    { e1 with doorOpen := true }
  else e1

/-- The release half of `Elevator::handleEmergency` (reached with `running`
still true once the latch has been cleared): back to `IDLE`, doors closed. -/
def handleEmergencyRelease (e : ElevatorS) : ElevatorS :=
  { e with state := ElevatorState.IDLE, doorOpen := false }

/-- The car fields the dispatcher reads through the public getters. -/
structure CarView where
  currentFloor : Int
  state : ElevatorState
  passengers : Int
  capacity : Int
  emergency : Bool
  maintenance : Bool
deriving DecidableEq

/-- `INT_MAX` of the 32-bit `int` used by the scoring code. -/
def intMax : Int := 2147483647

/-- Mirrors `ElevatorControlSystem::calculateElevatorScore`. -/
def calculateElevatorScore (c : CarView) (targetFloor : Int)
    (t : RequestType) : Int :=
  if c.emergency = true ∨ c.maintenance = true then intMax
  else
    let distance := |c.currentFloor - targetFloor|
    let directionScore : Int :=
      if c.state = ElevatorState.MOVING_UP then
        if c.currentFloor ≤ targetFloor then -10 else 10
      else if c.state = ElevatorState.MOVING_DOWN then
        if targetFloor ≤ c.currentFloor then -10 else 10
      else if c.state = ElevatorState.IDLE then -5
      else 0
    let loadScore := Int.tdiv (c.passengers * 10) c.capacity
    let typeScore : Int :=
      if t = RequestType.EXTERNAL_UP ∧ c.state = ElevatorState.MOVING_DOWN then 5
      else if t = RequestType.EXTERNAL_DOWN ∧ c.state = ElevatorState.MOVING_UP then 5
      else 0
    distance + directionScore + loadScore + typeScore

/-- The selection loop of `ElevatorControlSystem::findBestElevator`: `i` is
the index of the head of the remaining list, `bi`/`bs` are `bestIndex` and
`bestScore`; an update happens only on a strictly smaller score. -/
def bestLoop (floor : Int) (t : RequestType) :
    List CarView → Nat → Nat → Int → Nat
  | [], _, bi, _ => bi
  | c :: rest, i, bi, bs =>
    if calculateElevatorScore c floor t < bs then
      bestLoop floor t rest (i + 1) i (calculateElevatorScore c floor t)
    else bestLoop floor t rest (i + 1) bi bs

/-- Mirrors `ElevatorControlSystem::findBestElevator`: start from
`bestIndex = 0`, `bestScore = INT_MAX`. -/
def findBestElevator (cars : List CarView) (floor : Int) (t : RequestType) : Nat :=
  bestLoop floor t cars 0 0 intMax

end ElevatorSim

namespace ElevatorSim

/-! Concrete program states used by the claim theorems, counterexamples and
witnesses. -/

/-- A car sweeping up at floor 3 whose hall entry at floor 3 has both the up
and the down bit pressed. -/
def c1car : ElevatorS :=
  { (mkElevator 1 10 15) with
      currentFloor := 3
      state := ElevatorState.MOVING_UP
      externalRequests := [(3, true, true)] }

/-- A capacity-2 car with doors opening at floor 3 and no passengers. -/
def c2car : ElevatorS :=
  { (mkElevator 1 10 2) with
      currentFloor := 3
      state := ElevatorState.DOORS_OPEN }

/-- A fresh car that has just accepted the internal request for floor 1. -/
def c4car : ElevatorS :=
  (requestFloor (mkElevator 1 10 15) 1 RequestType.INTERNAL false).1

/-- An idle car at floor 2 whose only pending request is `Car(2)`. -/
def c5car : ElevatorS :=
  { (mkElevator 1 10 15) with
      currentFloor := 2
      internalRequests := {2} }

/-- An idle car at floor 3 with hall calls `HallUp(2)` and `HallDown(4)`. -/
def c6car : ElevatorS :=
  { (mkElevator 1 10 15) with
      currentFloor := 3
      externalRequests := [(2, true, false), (4, false, true)] }

/-- Car A of the dispatcher scenario: floor 10, moving up, empty. -/
def carA : CarView := ⟨10, ElevatorState.MOVING_UP, 0, 15, false, false⟩

/-- Car B of the dispatcher scenario: floor 3, idle, empty. -/
def carB : CarView := ⟨3, ElevatorState.IDLE, 0, 15, false, false⟩

/-- An emergency-latched car at floor 1. -/
def carL1 : CarView := ⟨1, ElevatorState.IDLE, 0, 15, true, false⟩

/-- A maintenance-latched car at floor 5. -/
def carL2 : CarView := ⟨5, ElevatorState.IDLE, 0, 15, false, true⟩

/-! Spec-side characterizations (written from the specification text, to be
compared with the functions embedded from the source). -/

/-- Spec-side direction bias of the dispatcher scoring function (section
4.2.1 of the specification). -/
def specDirectionBias (c : CarView) (tf : Int) : Int :=
  if c.state = ElevatorState.MOVING_UP ∧ c.currentFloor ≤ tf then -10
  else if c.state = ElevatorState.MOVING_UP ∧ tf < c.currentFloor then 10
  else if c.state = ElevatorState.MOVING_DOWN ∧ tf ≤ c.currentFloor then -10
  else if c.state = ElevatorState.MOVING_DOWN ∧ c.currentFloor < tf then 10
  else if c.state = ElevatorState.IDLE then -5
  else 0

/-- Spec-side kind-mismatch bias of the dispatcher scoring function. -/
def specKindBias (t : RequestType) (s : ElevatorState) : Int :=
  if t = RequestType.EXTERNAL_UP ∧ s = ElevatorState.MOVING_DOWN then 5
  else if t = RequestType.EXTERNAL_DOWN ∧ s = ElevatorState.MOVING_UP then 5
  else 0

/-- Spec-side notion of an "on the way" pressed hall floor: a floor at or
above the car with the up bit pressed, or at or below it with the down bit
pressed. -/
def isOnTheWayPressed (e : ElevatorS) (f : Int) : Prop :=
  ∃ u d, (f, u, d) ∈ e.externalRequests ∧
    ((u = true ∧ e.currentFloor ≤ f) ∨ (d = true ∧ f ≤ e.currentFloor))

/-- Spec-side characterization of `next_target()` (section 4.1.3): internal
calls first (least floor above when moving up, greatest floor below when
moving down, least floor overall when no same-direction target or no
direction), and with no internal calls an on-the-way hall floor minimizing
the distance to the car, ties to the lowest floor. -/
def nextTargetSpec (e : ElevatorS) (t : Int) : Prop :=
  (e.internalRequests.Nonempty →
    t ∈ e.internalRequests ∧
    (e.state = ElevatorState.MOVING_UP →
      ((∃ x ∈ e.internalRequests, e.currentFloor < x) →
        e.currentFloor < t ∧ ∀ x ∈ e.internalRequests, e.currentFloor < x → t ≤ x) ∧
      ((∀ x ∈ e.internalRequests, ¬ e.currentFloor < x) →
        ∀ x ∈ e.internalRequests, t ≤ x)) ∧
    (e.state = ElevatorState.MOVING_DOWN →
      ((∃ x ∈ e.internalRequests, x < e.currentFloor) →
        t < e.currentFloor ∧ ∀ x ∈ e.internalRequests, x < e.currentFloor → x ≤ t) ∧
      ((∀ x ∈ e.internalRequests, ¬ x < e.currentFloor) →
        ∀ x ∈ e.internalRequests, t ≤ x)) ∧
    (e.state ≠ ElevatorState.MOVING_UP → e.state ≠ ElevatorState.MOVING_DOWN →
      ∀ x ∈ e.internalRequests, t ≤ x)) ∧
  (e.internalRequests = ∅ → (∃ f, isOnTheWayPressed e f) →
    isOnTheWayPressed e t ∧
    ∀ f, isOnTheWayPressed e f →
      |t - e.currentFloor| ≤ |f - e.currentFloor| ∧
      (|t - e.currentFloor| = |f - e.currentFloor| → t ≤ f))

end ElevatorSim

namespace ElevatorSim

/-! Helper lemmas. -/

/-- Setting the up bit of a hall entry twice is the same as setting it once. -/
lemma extSetUp_extSetUp (l : ExtMap) (f : Int) :
    extSetUp (extSetUp l f) f = extSetUp l f := by
  induction l with
  | nil => simp [extSetUp]
  | cons a rest ih =>
    obtain ⟨g, u, d⟩ := a
    by_cases hlt : f < g
    · simp [extSetUp, hlt, lt_irrefl]
    · by_cases heq : f = g
      · subst heq
        simp [extSetUp, hlt, lt_irrefl]
      · simp [extSetUp, hlt, heq, ih]

/-- Setting the down bit of a hall entry twice is the same as setting it
once. -/
lemma extSetDown_extSetDown (l : ExtMap) (f : Int) :
    extSetDown (extSetDown l f) f = extSetDown l f := by
  induction l with
  | nil => simp [extSetDown]
  | cons a rest ih =>
    obtain ⟨g, u, d⟩ := a
    by_cases hlt : f < g
    · simp [extSetDown, hlt, lt_irrefl]
    · by_cases heq : f = g
      · subst heq
        simp [extSetDown, hlt, lt_irrefl]
      · simp [extSetDown, hlt, heq, ih]

/-! Claim theorems. -/

/-- C1.  The claim fails on the code and the code contradicts its own
direction branches: by the time `processStop` runs, `openDoors` has already
set the state to `DOORS_OPEN` (third conjunct, for every state and oracle
draw), so the `MOVING_UP`/`MOVING_DOWN` branches of `processStop` are dead
and a stop cycle of the up-moving car `c1car` at a floor with both hall
bits pressed removes the whole entry, clearing the down bit as well. -/
theorem c1_stop_cycle_clears_both_bits :
    c1car.state = ElevatorState.MOVING_UP ∧
    extLookup c1car.externalRequests 3 = some (true, true) ∧
    (stopCycle c1car 0 0).externalRequests = [] ∧
    (∀ (e : ElevatorS) (en ex : Int),
      (openDoors e en ex).state = ElevatorState.DOORS_OPEN) := by
  refine ⟨by decide, by decide, by decide, ?_⟩
  intro e en ex
  unfold openDoors simulatePassengers
  dsimp only
  split <;> rfl

/-- C2.  The overload flag is dead code: because `simulatePassengers` clamps
`entering` to the remaining capacity before comparing against `capacity`,
the flag is never raised by a passenger exchange (first conjunct, for any
oracle draw with nonnegative `exiting`); in the spec's own scenario
(capacity 2, 0 passengers, oracle `(5, 0)`) boarding is clamped to 2 but
`overloaded` stays false. -/
theorem c2_overload_flag_never_raised (e : ElevatorS) (en ex : Int)
    (hex : 0 ≤ ex) :
    (simulatePassengers e en ex).overloaded = e.overloaded ∧
    (simulatePassengers c2car 5 0).currentPassengers = 2 ∧
    (simulatePassengers c2car 5 0).overloaded = false := by
  refine ⟨?_, by decide, by decide⟩
  unfold simulatePassengers
  dsimp only
  rw [if_neg]
  have h1 : min en (e.capacity - e.currentPassengers) ≤
      e.capacity - e.currentPassengers := min_le_right _ _
  omega

/-- Witness for C2 at the spec's own overload scenario. -/
theorem c2_overload_flag_never_raised_w :
    (0 : Int) ≤ 0 ∧
    ((simulatePassengers c2car 5 0).overloaded = c2car.overloaded ∧
      (simulatePassengers c2car 5 0).currentPassengers = 2 ∧
      (simulatePassengers c2car 5 0).overloaded = false) :=
  ⟨by decide, c2_overload_flag_never_raised c2car 5 0 (by decide)⟩

/-- C3 counterexample.  Re-pressing an in-range internal button is not
`Accepted` twice: the first press of `Car(3)` on a fresh car returns true
but the second returns false. -/
theorem c3_second_internal_press_rejected :
    (requestFloor (mkElevator 1 10 15) 3 RequestType.INTERNAL false).2 = true ∧
    (requestFloor (requestFloor (mkElevator 1 10 15) 3
        RequestType.INTERNAL false).1 3 RequestType.INTERNAL false).2 = false := by
  constructor <;> decide

/-- Reduction of `requestFloor` for an in-range non-emergency request on a
car not in maintenance. -/
lemma requestFloor_normal (e : ElevatorS) (f : Int) (k : RequestType)
    (hr : ¬ (f < 1 ∨ e.maxFloors < f)) (hm : e.maintenanceMode = false) :
    requestFloor e f k false =
      match k with
      | RequestType.INTERNAL =>
        if f ∈ e.internalRequests then (e, false)
        else ({ e with internalRequests := insert f e.internalRequests }, true)
      | RequestType.EXTERNAL_UP =>
        ({ e with externalRequests := extSetUp e.externalRequests f }, true)
      | RequestType.EXTERNAL_DOWN =>
        ({ e with externalRequests := extSetDown e.externalRequests f }, true) := by
  unfold requestFloor
  rw [if_neg hr, if_neg (by simp [hm]), if_neg (by simp)]

/-- C3 (amended).  For an in-range floor on a car not in maintenance, a
second press of the same button leaves the whole car state (in particular
`internal_calls` and `hall_calls`) exactly as after the first press, and the
first press is accepted; but only the hall kinds return `Accepted` on the
second press — a repeated `Car(f)` press returns false. -/
theorem c3_enqueue_idempotent (e : ElevatorS) (f : Int) (k : RequestType)
    (h1 : 1 ≤ f) (h2 : f ≤ e.maxFloors) (h3 : e.maintenanceMode = false)
    (h4 : k = RequestType.INTERNAL → f ∉ e.internalRequests) :
    (requestFloor (requestFloor e f k false).1 f k false).1 =
      (requestFloor e f k false).1 ∧
    (requestFloor e f k false).2 = true ∧
    (k = RequestType.INTERNAL →
      (requestFloor (requestFloor e f k false).1 f k false).2 = false) ∧
    (k ≠ RequestType.INTERNAL →
      (requestFloor (requestFloor e f k false).1 f k false).2 = true) := by
  have hr : ¬ (f < 1 ∨ e.maxFloors < f) := by omega
  cases k with
  | INTERNAL =>
    have hf := h4 rfl
    have hb1 := requestFloor_normal e f RequestType.INTERNAL hr h3
    dsimp only at hb1
    rw [if_neg hf] at hb1
    have hb2 := requestFloor_normal
      ({ e with internalRequests := insert f e.internalRequests }) f
      RequestType.INTERNAL hr h3
    dsimp only at hb2
    rw [if_pos (Finset.mem_insert_self f e.internalRequests)] at hb2
    rw [hb1]
    dsimp only
    rw [hb2]
    simp
  | EXTERNAL_UP =>
    have hb1 := requestFloor_normal e f RequestType.EXTERNAL_UP hr h3
    dsimp only at hb1
    have hb2 := requestFloor_normal
      ({ e with externalRequests := extSetUp e.externalRequests f }) f
      RequestType.EXTERNAL_UP hr h3
    dsimp only at hb2
    rw [hb1]
    dsimp only
    rw [hb2]
    simp [extSetUp_extSetUp]
  | EXTERNAL_DOWN =>
    have hb1 := requestFloor_normal e f RequestType.EXTERNAL_DOWN hr h3
    dsimp only at hb1
    have hb2 := requestFloor_normal
      ({ e with externalRequests := extSetDown e.externalRequests f }) f
      RequestType.EXTERNAL_DOWN hr h3
    dsimp only at hb2
    rw [hb1]
    dsimp only
    rw [hb2]
    simp [extSetDown_extSetDown]

/-- Witness for C3 (amended) at a fresh car and `HallUp(3)`. -/
theorem c3_enqueue_idempotent_w :
    ((1 : Int) ≤ 3 ∧ (3 : Int) ≤ (mkElevator 1 10 15).maxFloors ∧
      (mkElevator 1 10 15).maintenanceMode = false ∧
      (RequestType.EXTERNAL_UP = RequestType.INTERNAL →
        (3 : Int) ∉ (mkElevator 1 10 15).internalRequests)) ∧
    ((requestFloor (requestFloor (mkElevator 1 10 15) 3
        RequestType.EXTERNAL_UP false).1 3 RequestType.EXTERNAL_UP false).1 =
      (requestFloor (mkElevator 1 10 15) 3 RequestType.EXTERNAL_UP false).1 ∧
     (requestFloor (mkElevator 1 10 15) 3 RequestType.EXTERNAL_UP false).2 = true ∧
     (RequestType.EXTERNAL_UP = RequestType.INTERNAL →
       (requestFloor (requestFloor (mkElevator 1 10 15) 3
          RequestType.EXTERNAL_UP false).1 3 RequestType.EXTERNAL_UP false).2 = false) ∧
     (RequestType.EXTERNAL_UP ≠ RequestType.INTERNAL →
       (requestFloor (requestFloor (mkElevator 1 10 15) 3
          RequestType.EXTERNAL_UP false).1 3 RequestType.EXTERNAL_UP false).2 = true)) :=
  ⟨⟨by decide, by decide, by decide, by decide⟩,
    c3_enqueue_idempotent (mkElevator 1 10 15) 3 RequestType.EXTERNAL_UP
      (by decide) (by decide) (by decide) (by decide)⟩

/-- C4.  Invariant I1 fails on the code: a fresh car (floor 1, idle, 10
floors) that accepts the internal request `Car(1)` picks `MOVING_DOWN` for
the equal target, moves before checking for a stop, and one control-loop
iteration later sits at floor 0, outside `[1, max_floors]`. -/
theorem c4_car_leaves_floor_range :
    c4car.currentFloor = 1 ∧ c4car.maxFloors = 10 ∧
    c4car.state = ElevatorState.IDLE ∧
    (controlStep c4car 0 0).currentFloor = 0 := by
  refine ⟨by decide, by decide, by decide, by decide⟩

/-- C5 counterexample.  An idle car at floor 2 whose only request is
`Car(2)` has `next_target()` equal to the current floor, and the control
loop picks `MOVING_DOWN` — not `MovingUp` as the claim states. -/
theorem c5_equal_target_picks_down :
    c5car.state = ElevatorState.IDLE ∧
    findNextFloor c5car = c5car.currentFloor ∧
    (decideDirection c5car).state = ElevatorState.MOVING_DOWN := by
  refine ⟨by decide, by decide, by decide⟩

/-- C5 (amended).  When an idle car with pending work picks a direction,
the state becomes `MOVING_UP` when the target floor is strictly above the
current floor and `MOVING_DOWN` when it is strictly below; a target equal to
the current floor is treated as `MOVING_DOWN` (the code tests
`nextFloor > currentFloor`). -/
theorem c5_direction_pick (e : ElevatorS)
    (hidle : e.state = ElevatorState.IDLE)
    (hwork : e.internalRequests ≠ ∅ ∨ hasExternalRequests e.externalRequests = true) :
    (e.currentFloor < findNextFloor e →
      (decideDirection e).state = ElevatorState.MOVING_UP) ∧
    (findNextFloor e < e.currentFloor →
      (decideDirection e).state = ElevatorState.MOVING_DOWN) ∧
    (findNextFloor e = e.currentFloor →
      (decideDirection e).state = ElevatorState.MOVING_DOWN) := by
  unfold decideDirection
  rw [if_pos hidle, if_pos hwork]
  refine ⟨?_, ?_, ?_⟩ <;> intro h
  · rw [if_pos h]
  · rw [if_neg (by omega)]
  · rw [if_neg (by omega)]

/-- Witness for C5 (amended) at the concrete car `c5car`. -/
theorem c5_direction_pick_w :
    (c5car.state = ElevatorState.IDLE ∧
      (c5car.internalRequests ≠ ∅ ∨
        hasExternalRequests c5car.externalRequests = true)) ∧
    ((c5car.currentFloor < findNextFloor c5car →
        (decideDirection c5car).state = ElevatorState.MOVING_UP) ∧
     (findNextFloor c5car < c5car.currentFloor →
        (decideDirection c5car).state = ElevatorState.MOVING_DOWN) ∧
     (findNextFloor c5car = c5car.currentFloor →
        (decideDirection c5car).state = ElevatorState.MOVING_DOWN)) :=
  ⟨⟨by decide, by decide⟩,
    c5_direction_pick c5car (by decide) (Or.inl (by decide))⟩

/-- C9.  A full emergency episode (enter, latch cleared, release) changes
neither request collection, the floor, nor the passenger count, and leaves
the car idle with the doors flag cleared. -/
theorem c9_emergency_preserves_requests (e : ElevatorS) :
    (handleEmergencyRelease (resetEmergency (handleEmergencyEnter e))).internalRequests
      = e.internalRequests ∧
    (handleEmergencyRelease (resetEmergency (handleEmergencyEnter e))).externalRequests
      = e.externalRequests ∧
    (handleEmergencyRelease (resetEmergency (handleEmergencyEnter e))).currentFloor
      = e.currentFloor ∧
    (handleEmergencyRelease (resetEmergency (handleEmergencyEnter e))).currentPassengers
      = e.currentPassengers ∧
    (handleEmergencyRelease (resetEmergency (handleEmergencyEnter e))).state
      = ElevatorState.IDLE ∧
    (handleEmergencyRelease (resetEmergency (handleEmergencyEnter e))).doorOpen
      = false := by
  unfold handleEmergencyEnter resetEmergency handleEmergencyRelease
  dsimp only
  split <;> simp

/-- C10.  An emergency request with an in-range floor is accepted whatever
the rest of the car state (maintenance mode included): the result is exactly
the input car with `emergencyStop` set, paired with `true`, so the floor is
discarded and both request collections are untouched. -/
theorem c10_emergency_request_accepted (e : ElevatorS) (f : Int)
    (t : RequestType) (h1 : 1 ≤ f) (h2 : f ≤ e.maxFloors) :
    requestFloor e f t true = ({ e with emergencyStop := true }, true) := by
  unfold requestFloor
  rw [if_neg (by omega), if_neg (by simp), if_pos rfl]

/-- Witness for C10 on a maintenance-mode car with pending requests. -/
theorem c10_emergency_request_accepted_w :
    ((1 : Int) ≤ 4 ∧
      (4 : Int) ≤ ({ (mkElevator 1 10 15) with
          maintenanceMode := true
          internalRequests := {7} } : ElevatorS).maxFloors) ∧
    requestFloor ({ (mkElevator 1 10 15) with
        maintenanceMode := true
        internalRequests := {7} } : ElevatorS) 4 RequestType.INTERNAL true =
      ({ ({ (mkElevator 1 10 15) with
          maintenanceMode := true
          internalRequests := {7} } : ElevatorS) with emergencyStop := true }, true) :=
  ⟨⟨by decide, by decide⟩,
    c10_emergency_request_accepted _ 4 RequestType.INTERNAL (by decide) (by decide)⟩

end ElevatorSim

namespace ElevatorSim

/-- C7.  For every non-latched car the dispatcher score is the distance to
the target plus the spec's direction bias, load bias (integer division) and
kind-mismatch bias; on the spec's two-car scenario the scores are 16 and -4
and car B (index 1) is chosen. -/
theorem c7_score_formula (c : CarView) (tf : Int) (t : RequestType)
    (h1 : c.emergency = false) (h2 : c.maintenance = false) :
    calculateElevatorScore c tf t =
      |c.currentFloor - tf| + specDirectionBias c tf
        + Int.tdiv (c.passengers * 10) c.capacity + specKindBias t c.state ∧
    calculateElevatorScore carA 4 RequestType.EXTERNAL_UP = 16 ∧
    calculateElevatorScore carB 4 RequestType.EXTERNAL_UP = -4 ∧
    findBestElevator [carA, carB] 4 RequestType.EXTERNAL_UP = 1 := by
  refine ⟨?_, by decide, by decide, by decide⟩
  unfold calculateElevatorScore specDirectionBias specKindBias
  rw [if_neg (by simp [h1, h2])]
  cases hs : c.state <;> cases t <;>
    by_cases hup : c.currentFloor ≤ tf <;> by_cases hdn : tf ≤ c.currentFloor <;>
      simp [hs, hup, hdn] <;> omega

/-- Witness for C7 at car B of the dispatcher scenario. -/
theorem c7_score_formula_w :
    (carB.emergency = false ∧ carB.maintenance = false) ∧
    (calculateElevatorScore carB 4 RequestType.EXTERNAL_UP =
        |carB.currentFloor - 4| + specDirectionBias carB 4
          + Int.tdiv (carB.passengers * 10) carB.capacity
          + specKindBias RequestType.EXTERNAL_UP carB.state ∧
      calculateElevatorScore carA 4 RequestType.EXTERNAL_UP = 16 ∧
      calculateElevatorScore carB 4 RequestType.EXTERNAL_UP = -4 ∧
      findBestElevator [carA, carB] 4 RequestType.EXTERNAL_UP = 1) :=
  ⟨⟨by decide, by decide⟩,
    c7_score_formula carB 4 RequestType.EXTERNAL_UP (by decide) (by decide)⟩

/-- Latched cars get exactly `INT_MAX` from the scoring function. -/
lemma score_eq_intMax_of_latched (c : CarView) (tf : Int) (t : RequestType)
    (h : c.emergency = true ∨ c.maintenance = true) :
    calculateElevatorScore c tf t = intMax := by
  unfold calculateElevatorScore
  rw [if_pos h]

/-- A non-latched car with sane passenger data and a bounded distance to the
target scores strictly below `INT_MAX`. -/
lemma score_lt_intMax (c : CarView) (tf : Int) (t : RequestType)
    (he : c.emergency = false) (hm : c.maintenance = false)
    (hp0 : 0 ≤ c.passengers) (hpc : c.passengers ≤ c.capacity)
    (hcap : 1 ≤ c.capacity) (hdist : |c.currentFloor - tf| ≤ 1000000) :
    calculateElevatorScore c tf t < intMax := by
  unfold calculateElevatorScore intMax
  rw [if_neg (by simp [he, hm])]
  dsimp only
  have hload0 : 0 ≤ Int.tdiv (c.passengers * 10) c.capacity :=
    Int.tdiv_nonneg (by positivity) (by omega)
  have htd : Int.tdiv (c.passengers * 10) c.capacity =
      c.passengers * 10 / c.capacity := by
    have h10 : (0 : Int) ≤ c.passengers * 10 := by positivity
    have hc0 : (0 : Int) ≤ c.capacity := by omega
    lift c.passengers * 10 to ℕ using h10 with m
    lift c.capacity to ℕ using hc0 with n
    rfl
  have hload : Int.tdiv (c.passengers * 10) c.capacity ≤ 10 := by
    rw [htd]
    calc c.passengers * 10 / c.capacity
        ≤ c.capacity * 10 / c.capacity := Int.ediv_le_ediv (by omega) (by nlinarith)
      _ = 10 := by rw [mul_comm]; exact Int.mul_ediv_cancel 10 (by omega)
  split_ifs <;> linarith

/-- The selection loop returns `bestIndex` unchanged when nothing in the
list beats `bestScore`. -/
lemma bestLoop_const (floor : Int) (t : RequestType) :
    ∀ (l : List CarView) (i bi : Nat) (bs : Int),
      (∀ c ∈ l, ¬ calculateElevatorScore c floor t < bs) →
      bestLoop floor t l i bi bs = bi := by
  intro l
  induction l with
  | nil => intro i bi bs _; rfl
  | cons a rest ih =>
    intro i bi bs h
    have ha := h a (List.mem_cons_self a rest)
    simp only [bestLoop, if_neg ha]
    exact ih (i + 1) bi bs (fun c hc => h c (List.mem_cons_of_mem a hc))

/-- When some list element beats `bestScore`, the selection loop returns the
offset of an element that does. -/
lemma bestLoop_finds (floor : Int) (t : RequestType) :
    ∀ (l : List CarView) (i bi : Nat) (bs : Int),
      (∃ c ∈ l, calculateElevatorScore c floor t < bs) →
      ∃ k, ∃ hk : k < l.length,
        bestLoop floor t l i bi bs = i + k ∧
        calculateElevatorScore (l.get ⟨k, hk⟩) floor t < bs := by
  intro l
  induction l with
  | nil => intro i bi bs h; simp at h
  | cons a rest ih =>
    intro i bi bs h
    by_cases hc : calculateElevatorScore a floor t < bs
    · simp only [bestLoop, if_pos hc]
      by_cases hrest : ∃ c ∈ rest,
          calculateElevatorScore c floor t < calculateElevatorScore a floor t
      · obtain ⟨k, hk, heq, hsc⟩ := ih (i + 1) i (calculateElevatorScore a floor t) hrest
        refine ⟨k + 1, by simpa using Nat.succ_lt_succ hk, by rw [heq]; omega, ?_⟩
        exact lt_trans hsc hc
      · have hnone : ∀ c ∈ rest,
            ¬ calculateElevatorScore c floor t < calculateElevatorScore a floor t :=
          fun c hc2 hlt => hrest ⟨c, hc2, hlt⟩
        rw [bestLoop_const floor t rest (i + 1) i _ hnone]
        exact ⟨0, by simp, by omega, hc⟩
    · simp only [bestLoop, if_neg hc]
      have hrest : ∃ c ∈ rest, calculateElevatorScore c floor t < bs := by
        obtain ⟨c0, hc0, hs0⟩ := h
        rcases List.mem_cons.mp hc0 with hceq | hmem
        · exact absurd hs0 (hceq ▸ hc)
        · exact ⟨c0, hmem, hs0⟩
      obtain ⟨k, hk, heq, hsc⟩ := ih (i + 1) bi bs hrest
      exact ⟨k + 1, by simpa using Nat.succ_lt_succ hk, by rw [heq]; omega, hsc⟩

/-- C8 counterexample.  With every car in the fleet latched (car 0 in
emergency, car 1 in maintenance) the dispatcher still picks index 0, a
latched car — the claim's "never chosen" fails for this combination of
latch states. -/
theorem c8_all_latched_chooses_latched :
    carL1.emergency = true ∧ carL2.maintenance = true ∧
    findBestElevator [carL1, carL2] 4 RequestType.EXTERNAL_UP = 0 := by
  refine ⟨by decide, by decide, by decide⟩

/-- C8 (amended).  A latched car scores `INT_MAX` and is never chosen
provided at least one car of the fleet is non-latched (with sane passenger
data and a bounded distance, so that its score is below `INT_MAX`); when
every car is latched, `findBestElevator` defaults to index 0 and the
request is forwarded to that latched car. -/
theorem c8_latched_never_chosen (cars : List CarView) (floor : Int)
    (t : RequestType) (j : Nat) (hj : j < cars.length)
    (he : (cars.get ⟨j, hj⟩).emergency = false)
    (hm : (cars.get ⟨j, hj⟩).maintenance = false)
    (hp0 : 0 ≤ (cars.get ⟨j, hj⟩).passengers)
    (hpc : (cars.get ⟨j, hj⟩).passengers ≤ (cars.get ⟨j, hj⟩).capacity)
    (hcap : 1 ≤ (cars.get ⟨j, hj⟩).capacity)
    (hdist : |(cars.get ⟨j, hj⟩).currentFloor - floor| ≤ 1000000) :
    ∃ hb : findBestElevator cars floor t < cars.length,
      (cars.get ⟨findBestElevator cars floor t, hb⟩).emergency = false ∧
      (cars.get ⟨findBestElevator cars floor t, hb⟩).maintenance = false := by
  have hscore : calculateElevatorScore (cars.get ⟨j, hj⟩) floor t < intMax :=
    score_lt_intMax _ floor t he hm hp0 hpc hcap hdist
  obtain ⟨k, hk, heq, hks⟩ := bestLoop_finds floor t cars 0 0 intMax
    ⟨cars.get ⟨j, hj⟩, List.get_mem cars j hj, hscore⟩
  have heq2 : findBestElevator cars floor t = k := by
    unfold findBestElevator
    omega
  rw [heq2]
  have hnot : ¬ ((cars.get ⟨k, hk⟩).emergency = true ∨
      (cars.get ⟨k, hk⟩).maintenance = true) := by
    intro hlat
    rw [score_eq_intMax_of_latched _ floor t hlat] at hks
    exact lt_irrefl _ hks
  push_neg at hnot
  exact ⟨hk, by simpa using hnot.1, by simpa using hnot.2⟩

/-- Witness for C8 (amended): a fleet with a latched car 0 and a healthy
car 1; the chosen car is not latched. -/
theorem c8_latched_never_chosen_w :
    ((1 : Nat) < ([carL1, carB] : List CarView).length ∧
      carB.emergency = false ∧ carB.maintenance = false ∧
      (0 : Int) ≤ carB.passengers ∧ carB.passengers ≤ carB.capacity ∧
      (1 : Int) ≤ carB.capacity ∧ |carB.currentFloor - 4| ≤ 1000000) ∧
    ∃ hb : findBestElevator [carL1, carB] 4 RequestType.EXTERNAL_UP <
        ([carL1, carB] : List CarView).length,
      (([carL1, carB] : List CarView).get
        ⟨findBestElevator [carL1, carB] 4 RequestType.EXTERNAL_UP, hb⟩).emergency = false ∧
      (([carL1, carB] : List CarView).get
        ⟨findBestElevator [carL1, carB] 4 RequestType.EXTERNAL_UP, hb⟩).maintenance = false :=
  ⟨⟨by decide, by decide, by decide, by decide, by decide, by decide, by decide⟩,
    c8_latched_never_chosen [carL1, carB] 4 RequestType.EXTERNAL_UP 1 (by decide)
      (by decide) (by decide) (by decide) (by decide) (by decide) (by decide)⟩

end ElevatorSim

namespace ElevatorSim

/-- The scanning loop leaves `best` untouched when no entry qualifies. -/
lemma scanMin_none (cur : Int) (pred : Int × Bool × Bool → Bool) :
    ∀ (l : ExtMap) (best minD : Int),
      (∀ r ∈ l, ¬ (pred r = true ∧ |r.1 - cur| < minD)) →
      scanMin cur pred l best minD = best := by
  intro l
  induction l with
  | nil => intro best minD _; rfl
  | cons a rest ih =>
    intro best minD h
    have ha := h a (List.mem_cons_self a rest)
    simp only [scanMin, if_neg ha]
    exact ih best minD (fun r hr => h r (List.mem_cons_of_mem a hr))

/-- When some entry of the sorted map qualifies, the scanning loop returns
the key of a qualifying entry of minimal distance, ties going to the
earliest (lowest) key. -/
lemma scanMin_spec (cur : Int) (pred : Int × Bool × Bool → Bool) :
    ∀ (l : ExtMap) (best minD : Int),
      l.Pairwise (fun a b => a.1 < b.1) →
      (∃ r ∈ l, pred r = true ∧ |r.1 - cur| < minD) →
      ∃ r ∈ l, pred r = true ∧ |r.1 - cur| < minD ∧
        scanMin cur pred l best minD = r.1 ∧
        ∀ s ∈ l, pred s = true → |s.1 - cur| < minD →
          |r.1 - cur| < |s.1 - cur| ∨
            (|r.1 - cur| = |s.1 - cur| ∧ r.1 ≤ s.1) := by
  intro l
  induction l with
  | nil => intro best minD _ h; simp at h
  | cons a rest ih =>
    intro best minD hpw hex
    rw [List.pairwise_cons] at hpw
    obtain ⟨ha, hpt⟩ := hpw
    by_cases hc : pred a = true ∧ |a.1 - cur| < minD
    · simp only [scanMin, if_pos hc]
      by_cases hrest : ∃ r ∈ rest, pred r = true ∧ |r.1 - cur| < |a.1 - cur|
      · obtain ⟨r, hrmem, hrpred, hrd, hreq, hropt⟩ :=
          ih a.1 |a.1 - cur| hpt hrest
        refine ⟨r, List.mem_cons_of_mem a hrmem, hrpred,
          lt_trans hrd hc.2, hreq, ?_⟩
        intro s hs hsp hsd
        rcases List.mem_cons.mp hs with hs1 | hs2
        · subst hs1; left; exact hrd
        · by_cases hlt : |s.1 - cur| < |a.1 - cur|
          · exact hropt s hs2 hsp hlt
          · left; exact lt_of_lt_of_le hrd (not_lt.mp hlt)
      · have hnone : ∀ r ∈ rest, ¬ (pred r = true ∧ |r.1 - cur| < |a.1 - cur|) :=
          fun r hr hcontra => hrest ⟨r, hr, hcontra⟩
        rw [scanMin_none cur pred rest a.1 |a.1 - cur| hnone]
        refine ⟨a, List.mem_cons_self a rest, hc.1, hc.2, rfl, ?_⟩
        intro s hs hsp hsd
        rcases List.mem_cons.mp hs with hs1 | hs2
        · subst hs1; right; exact ⟨rfl, le_refl _⟩
        · have hge : ¬ |s.1 - cur| < |a.1 - cur| :=
            fun hlt => hnone s hs2 ⟨hsp, hlt⟩
          rcases lt_or_eq_of_le (not_lt.mp hge) with hlt2 | heq2
          · left; exact hlt2
          · right; exact ⟨heq2, le_of_lt (ha s hs2)⟩
    · simp only [scanMin, if_neg hc]
      have hrest : ∃ r ∈ rest, pred r = true ∧ |r.1 - cur| < minD := by
        obtain ⟨r0, hr0, hp0, hd0⟩ := hex
        rcases List.mem_cons.mp hr0 with h1 | h2
        · subst h1; exact absurd ⟨hp0, hd0⟩ hc
        · exact ⟨r0, h2, hp0, hd0⟩
      obtain ⟨r, hrmem, hrpred, hrd, hreq, hropt⟩ := ih best minD hpt hrest
      refine ⟨r, List.mem_cons_of_mem a hrmem, hrpred, hrd, hreq, ?_⟩
      intro s hs hsp hsd
      rcases List.mem_cons.mp hs with hs1 | hs2
      · subst hs1; exact absurd ⟨hsp, hsd⟩ hc
      · exact hropt s hs2 hsp hsd

/-- Reduction of `findNextFloor` with no internal requests. -/
lemma findNextFloor_ext (e : ElevatorS) (hemp : e.internalRequests = ∅) :
    findNextFloor e =
      findNextExternal e.currentFloor e.maxFloors e.externalRequests := by
  unfold findNextFloor
  rw [dif_neg (by simp [hemp])]

/-- Reduction of `findNextFloor`: moving up with an internal call above. -/
lemma findNextFloor_int_up_some (e : ElevatorS)
    (hne : e.internalRequests.Nonempty) (hs : e.state = ElevatorState.MOVING_UP)
    (h : (e.internalRequests.filter (fun x => e.currentFloor < x)).Nonempty) :
    findNextFloor e =
      (e.internalRequests.filter (fun x => e.currentFloor < x)).min' h := by
  unfold findNextFloor
  rw [dif_pos hne, if_pos hs, dif_pos h]

/-- Reduction of `findNextFloor`: moving up with no internal call above. -/
lemma findNextFloor_int_up_none (e : ElevatorS)
    (hne : e.internalRequests.Nonempty) (hs : e.state = ElevatorState.MOVING_UP)
    (h : ¬ (e.internalRequests.filter (fun x => e.currentFloor < x)).Nonempty) :
    findNextFloor e = e.internalRequests.min' hne := by
  unfold findNextFloor
  rw [dif_pos hne, if_pos hs, dif_neg h]

/-- Reduction of `findNextFloor`: moving down with an internal call below. -/
lemma findNextFloor_int_down_some (e : ElevatorS)
    (hne : e.internalRequests.Nonempty) (hs : e.state = ElevatorState.MOVING_DOWN)
    (h : (e.internalRequests.filter (fun x => x < e.currentFloor)).Nonempty) :
    findNextFloor e =
      (e.internalRequests.filter (fun x => x < e.currentFloor)).max' h := by
  unfold findNextFloor
  rw [dif_pos hne]
  rw [if_neg (by rw [hs]; intro hcon; cases hcon), if_pos hs, dif_pos h]

/-- Reduction of `findNextFloor`: moving down with no internal call below. -/
lemma findNextFloor_int_down_none (e : ElevatorS)
    (hne : e.internalRequests.Nonempty) (hs : e.state = ElevatorState.MOVING_DOWN)
    (h : ¬ (e.internalRequests.filter (fun x => x < e.currentFloor)).Nonempty) :
    findNextFloor e = e.internalRequests.min' hne := by
  unfold findNextFloor
  rw [dif_pos hne]
  rw [if_neg (by rw [hs]; intro hcon; cases hcon), if_pos hs, dif_neg h]

/-- Reduction of `findNextFloor`: internal calls pending, no direction. -/
lemma findNextFloor_int_other (e : ElevatorS)
    (hne : e.internalRequests.Nonempty)
    (h1 : e.state ≠ ElevatorState.MOVING_UP)
    (h2 : e.state ≠ ElevatorState.MOVING_DOWN) :
    findNextFloor e = e.internalRequests.min' hne := by
  unfold findNextFloor
  rw [dif_pos hne, if_neg h1, if_neg h2]

end ElevatorSim

namespace ElevatorSim

/-- The spec's "on the way pressed" condition implies the code's Boolean
`onTheWay` test. -/
lemma onTheWay_of_cond (cur f : Int) (u d : Bool)
    (h : (u = true ∧ cur ≤ f) ∨ (d = true ∧ f ≤ cur)) :
    onTheWay cur (f, u, d) = true := by
  unfold onTheWay
  rcases h with ⟨hu, hle⟩ | ⟨hd, hle⟩
  · simp [hu, hle]
  · simp [hd, hle]

/-- C6.  On a well-formed car state (sorted hall map, in-range hall floors
and current floor), `findNextFloor` satisfies the spec characterization of
`next_target()`: internal calls take priority (least floor above when
moving up, greatest floor below when moving down, least floor overall when
no same-direction call or no direction), and with no internal calls an
on-the-way pressed hall floor of minimal distance is chosen, ties to the
lowest floor. -/
theorem c6_next_target_spec (e : ElevatorS)
    (hpw : e.externalRequests.Pairwise (fun a b => a.1 < b.1))
    (hrange : ∀ r ∈ e.externalRequests, 1 ≤ r.1 ∧ r.1 ≤ e.maxFloors)
    (hcf1 : 1 ≤ e.currentFloor) (hcf2 : e.currentFloor ≤ e.maxFloors) :
    nextTargetSpec e (findNextFloor e) := by
  constructor
  · intro hne
    refine ⟨?_, ?_, ?_, ?_⟩
    · -- membership in internal_calls
      by_cases hs1 : e.state = ElevatorState.MOVING_UP
      · by_cases h : (e.internalRequests.filter (fun x => e.currentFloor < x)).Nonempty
        · rw [findNextFloor_int_up_some e hne hs1 h]
          exact (Finset.mem_filter.mp (Finset.min'_mem _ h)).1
        · rw [findNextFloor_int_up_none e hne hs1 h]
          exact Finset.min'_mem _ hne
      · by_cases hs2 : e.state = ElevatorState.MOVING_DOWN
        · by_cases h : (e.internalRequests.filter (fun x => x < e.currentFloor)).Nonempty
          · rw [findNextFloor_int_down_some e hne hs2 h]
            exact (Finset.mem_filter.mp (Finset.max'_mem _ h)).1
          · rw [findNextFloor_int_down_none e hne hs2 h]
            exact Finset.min'_mem _ hne
        · rw [findNextFloor_int_other e hne hs1 hs2]
          exact Finset.min'_mem _ hne
    · -- moving up
      intro hs1
      constructor
      · intro hexu
        have h : (e.internalRequests.filter (fun x => e.currentFloor < x)).Nonempty := by
          rw [Finset.filter_nonempty_iff]; exact hexu
        rw [findNextFloor_int_up_some e hne hs1 h]
        refine ⟨(Finset.mem_filter.mp (Finset.min'_mem _ h)).2, ?_⟩
        intro x hx hcx
        exact Finset.min'_le (e.internalRequests.filter (fun y => e.currentFloor < y)) x
          (Finset.mem_filter.mpr ⟨hx, hcx⟩)
      · intro hnone
        have h : ¬ (e.internalRequests.filter (fun x => e.currentFloor < x)).Nonempty := by
          rw [Finset.filter_nonempty_iff]
          rintro ⟨x, hx, hcx⟩
          exact hnone x hx hcx
        rw [findNextFloor_int_up_none e hne hs1 h]
        intro x hx
        exact Finset.min'_le _ x hx
    · -- moving down
      intro hs2
      constructor
      · intro hexd
        have h : (e.internalRequests.filter (fun x => x < e.currentFloor)).Nonempty := by
          rw [Finset.filter_nonempty_iff]; exact hexd
        rw [findNextFloor_int_down_some e hne hs2 h]
        refine ⟨(Finset.mem_filter.mp (Finset.max'_mem _ h)).2, ?_⟩
        intro x hx hcx
        exact Finset.le_max' (e.internalRequests.filter (fun y => y < e.currentFloor)) x
          (Finset.mem_filter.mpr ⟨hx, hcx⟩)
      · intro hnone
        have h : ¬ (e.internalRequests.filter (fun x => x < e.currentFloor)).Nonempty := by
          rw [Finset.filter_nonempty_iff]
          rintro ⟨x, hx, hcx⟩
          exact hnone x hx hcx
        rw [findNextFloor_int_down_none e hne hs2 h]
        intro x hx
        exact Finset.min'_le _ x hx
    · -- no direction
      intro hs1 hs2
      rw [findNextFloor_int_other e hne hs1 hs2]
      intro x hx
      exact Finset.min'_le _ x hx
  · intro hemp hex
    rw [findNextFloor_ext e hemp]
    obtain ⟨f0, hf0⟩ := hex
    obtain ⟨u0, d0, hmem0, hcond0⟩ := hf0
    have hpred0 := onTheWay_of_cond e.currentFloor f0 u0 d0 hcond0
    have hb0 := hrange (f0, u0, d0) hmem0
    have hdist0 : |(f0, u0, d0).1 - e.currentFloor| < e.maxFloors + 1 := by
      rw [abs_sub_lt_iff]
      dsimp only
      omega
    obtain ⟨r, hrmem, hrpred, hrd, hreq, hropt⟩ :=
      scanMin_spec e.currentFloor (onTheWay e.currentFloor) e.externalRequests
        (-1) (e.maxFloors + 1) hpw ⟨(f0, u0, d0), hmem0, hpred0, hdist0⟩
    have hr1 : 1 ≤ r.1 := (hrange r hrmem).1
    have heqext : findNextExternal e.currentFloor e.maxFloors e.externalRequests = r.1 := by
      unfold findNextExternal
      dsimp only
      rw [hreq, if_pos (by omega : r.1 ≠ -1)]
    rw [heqext]
    constructor
    · refine ⟨r.2.1, r.2.2, hrmem, ?_⟩
      unfold onTheWay at hrpred
      simp only [Bool.or_eq_true, Bool.and_eq_true, decide_eq_true_eq] at hrpred
      exact hrpred
    · intro f hf
      obtain ⟨u, d, hmem, hcond⟩ := hf
      have hpredf := onTheWay_of_cond e.currentFloor f u d hcond
      have hbf := hrange (f, u, d) hmem
      have hdistf : |(f, u, d).1 - e.currentFloor| < e.maxFloors + 1 := by
        rw [abs_sub_lt_iff]
        dsimp only
        omega
      have hopt := hropt (f, u, d) hmem hpredf hdistf
      constructor
      · rcases hopt with h | ⟨h, _⟩
        · exact le_of_lt h
        · exact le_of_eq h
      · intro heq
        rcases hopt with h | ⟨_, hle⟩
        · rw [heq] at h
          exact absurd h (lt_irrefl _)
        · exact hle

/-- Concrete well-formed state for the C6 witness: idle car at floor 3 with
hall calls `HallUp(2)` and `HallDown(4)`. -/
theorem c6_next_target_spec_w :
    (c6car.externalRequests.Pairwise (fun a b => a.1 < b.1) ∧
      (∀ r ∈ c6car.externalRequests, 1 ≤ r.1 ∧ r.1 ≤ c6car.maxFloors) ∧
      1 ≤ c6car.currentFloor ∧ c6car.currentFloor ≤ c6car.maxFloors) ∧
    nextTargetSpec c6car (findNextFloor c6car) :=
  ⟨⟨by decide, by decide, by decide, by decide⟩,
    c6_next_target_spec c6car (by decide) (by decide) (by decide) (by decide)⟩

end ElevatorSim
